import Mathlib

/-!
Verification of the credential-management core of the repository:
`user_manager.py` (persistent, SQLite-backed store) and
`user_access_system.py` (in-memory, typed-account access control).

Both variants hash passwords with `hashlib.sha256(password.encode('utf-8')).hexdigest()`;
we model SHA-256 over byte lists (bytes as `Nat` below 256, 32-bit words as `Nat`
reduced modulo `2^32`), and UTF-8 encoding of strings.
-/

namespace Sha

/-- 2^32, the modulus for 32-bit words. -/
def M32 : Nat := 4294967296

/-- Right rotation of a 32-bit word by `n` bits. -/
def rotr32 (n w : Nat) : Nat := w / 2 ^ n + w % 2 ^ n * 2 ^ (32 - n)

/-- Logical right shift of a 32-bit word by `n` bits. -/
def shr32 (n w : Nat) : Nat := w / 2 ^ n

/-- Bitwise complement within 32 bits. -/
def not32 (a : Nat) : Nat := 4294967295 - a % M32

/-- The eight 32-bit working variables of SHA-256. -/
structure Hash8 where
  a : Nat
  b : Nat
  c : Nat
  d : Nat
  e : Nat
  f : Nat
  g : Nat
  h : Nat

/-- SHA-256 initial hash value. -/
def initH : Hash8 :=
  ⟨0x6a09e667, 0xbb67ae85, 0x3c6ef372, 0xa54ff53a,
   0x510e527f, 0x9b05688c, 0x1f83d9ab, 0x5be0cd19⟩

/-- SHA-256 round constants (FIPS 180-4 §4.2.2, written in decimal). -/
def K : List Nat :=
  [1116352408, 1899447441, 3049323471, 3921009573, 961987163, 1508970993,
   2453635748, 2870763221, 3624381080, 310598401, 607225278, 1426881987,
   1925078388, 2162078206, 2614888103, 3248222580, 3835390401, 4022224774,
   264347078, 604807628, 770255983, 1249150122, 1555081692, 1996064986,
   2554220882, 2821834349, 2952996808, 3210313671, 3336571891, 3584528711,
   113926993, 338241895, 666307205, 773529912, 1294757372, 1396182291,
   1695183700, 1986661051, 2177026350, 2456956037, 2730485921, 2820302411,
   3259730800, 3345764771, 3516065817, 3600352804, 4094571909, 275423344,
   430227734, 506948616, 659060556, 883997877, 958139571, 1322822218,
   1537002063, 1747873779, 1955562222, 2024104815, 2227730452, 2361852424,
   2428436474, 2756734187, 3204031479, 3329325298]

def bigSigma0 (x : Nat) : Nat := Nat.xor (Nat.xor (rotr32 2 x) (rotr32 13 x)) (rotr32 22 x)

def bigSigma1 (x : Nat) : Nat := Nat.xor (Nat.xor (rotr32 6 x) (rotr32 11 x)) (rotr32 25 x)

def smallSigma0 (x : Nat) : Nat := Nat.xor (Nat.xor (rotr32 7 x) (rotr32 18 x)) (shr32 3 x)

def smallSigma1 (x : Nat) : Nat := Nat.xor (Nat.xor (rotr32 17 x) (rotr32 19 x)) (shr32 10 x)

def ch (e f g : Nat) : Nat := Nat.xor (Nat.land e f) (Nat.land (not32 e) g)

def maj (a b c : Nat) : Nat :=
  Nat.xor (Nat.xor (Nat.land a b) (Nat.land a c)) (Nat.land b c)

/-- Extend a message-schedule prefix by one word. -/
def extendW (w : List Nat) : List Nat :=
  let n := w.length
  w ++ [(smallSigma1 (w.getD (n - 2) 0) + w.getD (n - 7) 0 +
         smallSigma0 (w.getD (n - 15) 0) + w.getD (n - 16) 0) % M32]

/-- Full 64-word message schedule from the 16 words of one chunk. -/
def schedule (w : List Nat) : List Nat := extendW^[48] w

/-- One compression round. -/
def round (s : Hash8) (wk : Nat × Nat) : Hash8 :=
  let t1 := (s.h + bigSigma1 s.e + ch s.e s.f s.g + wk.1 + wk.2) % M32
  let t2 := (bigSigma0 s.a + maj s.a s.b s.c) % M32
  ⟨(t1 + t2) % M32, s.a, s.b, s.c, (s.d + t1) % M32, s.e, s.f, s.g⟩

/-- Compress one 16-word chunk into the running hash value. -/
def compress (H : Hash8) (chunkWords : List Nat) : Hash8 :=
  let s := ((schedule chunkWords).zip K).foldl round H
  ⟨(H.a + s.a) % M32, (H.b + s.b) % M32, (H.c + s.c) % M32, (H.d + s.d) % M32,
   (H.e + s.e) % M32, (H.f + s.f) % M32, (H.g + s.g) % M32, (H.h + s.h) % M32⟩

/-- Big-endian 32-bit words from bytes. -/
def bytesToWords : List Nat → List Nat
  | b0 :: b1 :: b2 :: b3 :: rest =>
      (((b0 * 256 + b1) * 256 + b2) * 256 + b3) :: bytesToWords rest
  | _ => []

/-- Split into 64-byte chunks; `fuel` bounds the recursion (any `fuel ≥ length` is enough). -/
def chunks64 : Nat → List Nat → List (List Nat)
  | 0, _ => []
  | _ + 1, [] => []
  | fuel + 1, l => l.take 64 :: chunks64 fuel (l.drop 64)

/-- The message bit length as 8 big-endian bytes. -/
def lenBytes (n : Nat) : List Nat :=
  [n / 2 ^ 56 % 256, n / 2 ^ 48 % 256, n / 2 ^ 40 % 256, n / 2 ^ 32 % 256,
   n / 2 ^ 24 % 256, n / 2 ^ 16 % 256, n / 2 ^ 8 % 256, n % 256]

/-- SHA-256 padding: a 0x80 byte, zeros to 56 mod 64, then the 64-bit bit length. -/
def pad (msg : List Nat) : List Nat :=
  msg ++ 128 :: List.replicate ((119 - msg.length % 64) % 64) 0 ++ lenBytes (msg.length * 8)

/-- The final eight hash words of a byte message. -/
def sha256Words (msg : List Nat) : Hash8 :=
  let padded := pad msg
  (chunks64 padded.length padded).foldl (fun H chunk => compress H (bytesToWords chunk)) initH

/-- Big-endian bytes of one hash word. -/
def wordBytes (w : Nat) : List Nat :=
  [w / 2 ^ 24 % 256, w / 2 ^ 16 % 256, w / 2 ^ 8 % 256, w % 256]

/-- The 32 digest bytes. -/
def digestBytes (H : Hash8) : List Nat :=
  [H.a, H.b, H.c, H.d, H.e, H.f, H.g, H.h].flatMap wordBytes

/-- Lowercase hexadecimal digit for `n < 16`. -/
def toHexChar (n : Nat) : Char := if n < 10 then Char.ofNat (48 + n) else Char.ofNat (87 + n)

/-- Two lowercase hex characters of one byte. -/
def byteToHex (b : Nat) : List Char := [toHexChar (b / 16), toHexChar (b % 16)]

/-- Render bytes as a lowercase hexadecimal string (`hexdigest`). -/
def bytesToHexStr (bs : List Nat) : String := ⟨bs.flatMap byteToHex⟩

/-- UTF-8 encoding of one character. -/
def utf8Char (c : Char) : List Nat :=
  let n := c.toNat
  if n < 128 then [n]
  else if n < 2048 then [192 + n / 64, 128 + n % 64]
  else if n < 65536 then [224 + n / 4096, 128 + n / 64 % 64, 128 + n % 64]
  else [240 + n / 262144, 128 + n / 4096 % 64, 128 + n / 64 % 64, 128 + n % 64]

/-- UTF-8 encoding of a string (`str.encode('utf-8')`). -/
def utf8Encode (s : String) : List Nat := s.data.flatMap utf8Char

/-- `hashlib.sha256(s.encode('utf-8')).hexdigest()`. -/
def sha256hex (s : String) : String := bytesToHexStr (digestBytes (sha256Words (utf8Encode s)))

end Sha

deriving instance DecidableEq for Except

/-- Python `str.strip()`: drop leading and trailing whitespace. -/
def pyStrip (s : String) : String :=
  ⟨((s.data.dropWhile Char.isWhitespace).reverse.dropWhile Char.isWhitespace).reverse⟩

/-! ## `user_manager.py`: the persistent credential store

The SQLite table is modelled as an insertion-ordered list of rows; the
`id` and `created_at` columns play no role in any claim and are omitted.
Each `return False` branch of the Python code is mapped to the error kind
the spec's taxonomy gives it (the code distinguishes the branches by their
printed messages). -/

namespace UM

/-- One row of the `users` table. -/
structure Record where
  login : String
  password : String
  full_name : String
deriving DecidableEq

/-- Error kinds of the failure branches. -/
inductive Error where
  | ValidationError
  | DuplicateLoginError
  | NotFoundError
  | InvalidCredentialsError
deriving DecidableEq

/-- `UserManager.hash_password`. -/
def hash_password (password : String) : String := Sha.sha256hex password

/-- The `UNIQUE` constraint on `login`: does a row with this exact login exist? -/
def loginTaken (db : List Record) (l : String) : Bool := db.any (fun r => r.login == l)

/-- `SELECT ... WHERE login = ?`: first row with this exact login. -/
def findUser : List Record → String → Option Record
  | [], _ => none
  | r :: t, l => if r.login == l then some r else findUser t l

/-- `UserManager.add_user`: validation (`not all([...])`, i.e. some field is the
empty string), then `INSERT` of the stripped login, the password hash and the
stripped full name; the `UNIQUE` constraint rejects a taken login. -/
def add_user (db : List Record) (login password full_name : String) :
    Except Error Unit × List Record :=
  if login == "" || password == "" || full_name == "" then (.error .ValidationError, db)
  else if loginTaken db (pyStrip login) then (.error .DuplicateLoginError, db)
  else (.ok (), db ++ [⟨pyStrip login, hash_password password, pyStrip full_name⟩])

/-- `UserManager.update_password`: validation, existence check on the stripped
login, then `UPDATE` of every row with that login. -/
def update_password (db : List Record) (login new_password : String) :
    Except Error Unit × List Record :=
  if login == "" || new_password == "" then (.error .ValidationError, db)
  else
    match findUser db (pyStrip login) with
    | none => (.error .NotFoundError, db)
    | some _ =>
        (.ok (), db.map (fun r =>
          if r.login == pyStrip login then { r with password := hash_password new_password } else r))

/-- `UserManager.authenticate_user`: validation, lookup of the stripped login,
then hash comparison. Read-only, so only the result is returned. -/
def authenticate_user (db : List Record) (login password : String) : Except Error Unit :=
  if login == "" || password == "" then .error .ValidationError
  else
    match findUser db (pyStrip login) with
    | none => .error .NotFoundError
    | some r =>
        if r.password == hash_password password then .ok () else .error .InvalidCredentialsError

/-- `UserManager.user_exists`. -/
def user_exists (db : List Record) (login : String) : Bool :=
  (findUser db (pyStrip login)).isSome

/-- `UserManager.get_user_count`. -/
def get_user_count (db : List Record) : Nat := db.length

/-- The mutating operations of the store. -/
inductive Op where
  | addUser (login password full_name : String)
  | updatePassword (login new_password : String)

def step (db : List Record) : Op → List Record
  | .addUser l p n => (add_user db l p n).2
  | .updatePassword l p => (update_password db l p).2

def run (db : List Record) (ops : List Op) : List Record := ops.foldl step db

/-- The stored logins, in insertion order. -/
def logins (db : List Record) : List String := db.map Record.login

end UM

/-! ## `user_access_system.py`: the in-memory access-control layer

The class hierarchy `User` / `Administrator` / `RegularUser` / `GuestUser` is a
tagged variant: a common base payload plus a kind-specific payload. Wall-clock
instants (`datetime.datetime.now()`) are passed in explicitly as whole seconds
(`Int`); `total_seconds()` differences become integer subtraction. -/

namespace AC

/-- Kind-specific payload of the three `User` subclasses (and the bare base class). -/
inductive Kind where
  | base
  | admin (permissions : List String)
  | regular (last_login : Option Int) (login_count : Nat)
  | guest (session_duration : Int) (created_at : Int)
deriving DecidableEq

/-- Common payload of `User.__init__`. -/
structure User where
  username : String
  password_hash : String
  is_active : Bool
  kind : Kind
deriving DecidableEq

/-- `User._hash_password`. -/
def hash_password (password : String) : String := Sha.sha256hex password

/-- `User.__init__`. -/
def mkUser (username password : String) (is_active : Bool) : User :=
  ⟨username, hash_password password, is_active, .base⟩

/-- The default permission list of `Administrator.__init__`. -/
def defaultPermissions : List String :=
  ["user_management", "system_config", "database_access", "security_settings"]

/-- `Administrator.__init__`; `permissions or [...]` replaces a falsy
(absent or empty) list by the default. -/
def mkAdministrator (username password : String) (permissions : List String)
    (is_active : Bool) : User :=
  ⟨username, hash_password password, is_active,
   .admin (if permissions.isEmpty then defaultPermissions else permissions)⟩

/-- `RegularUser.__init__`. -/
def mkRegularUser (username password : String) (is_active : Bool) : User :=
  ⟨username, hash_password password, is_active, .regular none 0⟩

/-- `GuestUser.__init__` at time `now`. -/
def mkGuestUser (username password : String) (now : Int) : User :=
  ⟨username, hash_password password, true, .guest 3600 now⟩

/-- `User.verify_password`. -/
def verify_password (u : User) (password : String) : Bool :=
  u.password_hash == hash_password password

/-- `isinstance(user, GuestUser) and user.is_session_expired()` at time `now`. -/
def is_session_expired (u : User) (now : Int) : Bool :=
  match u.kind with
  | .guest dur created => decide (now - created > dur)
  | _ => false

/-- `GuestUser.get_remaining_time` at time `now` (`int()` truncation is the
identity in whole seconds); `0` for non-guests, which have no such method. -/
def get_remaining_time (u : User) (now : Int) : Int :=
  match u.kind with
  | .guest dur created => max 0 (dur - (now - created))
  | _ => 0

/-- Is this a `RegularUser`? -/
def isRegular (u : User) : Bool :=
  match u.kind with
  | .regular _ _ => true
  | _ => false

/-- `RegularUser.record_login` at time `now` (identity for other kinds, which
the `isinstance` guard at the call site excludes). -/
def record_login (u : User) (now : Int) : User :=
  match u.kind with
  | .regular _ c => { u with kind := .regular (some now) (c + 1) }
  | _ => u

/-- The `login_count` of a `RegularUser` (0 for other kinds). -/
def loginCount (u : User) : Nat :=
  match u.kind with
  | .regular _ c => c
  | _ => 0

/-- The `last_login` of a `RegularUser` (`None` for other kinds). -/
def lastLogin (u : User) : Option Int :=
  match u.kind with
  | .regular t _ => t
  | _ => none

/-- The permission list of an `Administrator` (empty for other kinds). -/
def permissions (u : User) : List String :=
  match u.kind with
  | .admin ps => ps
  | _ => []

/-- `Administrator.has_permission`: `permission in self.permissions`. -/
def has_permission (u : User) (p : String) : Bool := (permissions u).contains p

/-- `Administrator.add_permission`: append unless already present. -/
def add_permission (u : User) (p : String) : User :=
  match u.kind with
  | .admin ps => if ps.contains p then u else { u with kind := .admin (ps ++ [p]) }
  | _ => u

/-- `Administrator.remove_permission`: `list.remove` of the first occurrence,
guarded by membership. -/
def remove_permission (u : User) (p : String) : User :=
  match u.kind with
  | .admin ps => if ps.contains p then { u with kind := .admin (ps.erase p) } else u
  | _ => u

/-- `AccessControl.users`: an insertion-ordered dict from username to `User`. -/
abbrev State := List (String × User)

/-- Dict lookup `self.users[username]` / membership `username in self.users`. -/
def lookupUser : State → String → Option User
  | [], _ => none
  | p :: t, name => if p.1 == name then some p.2 else lookupUser t name

def containsUser (s : State) (name : String) : Bool := (lookupUser s name).isSome

/-- In-place mutation of the stored object: replace the value at a key. -/
def updateUser (s : State) (name : String) (u : User) : State :=
  s.map (fun p => if p.1 == name then (p.1, u) else p)

/-- Error kinds of `AccessControl.authenticate_user`'s failure branches. -/
inductive AuthError where
  | NotFoundError
  | InactiveAccountError
  | SessionExpiredError
  | InvalidCredentialsError
deriving DecidableEq

/-- `AccessControl.add_user`. -/
def add_user (s : State) (u : User) : Bool × State :=
  if containsUser s u.username then (false, s)
  else (true, s ++ [(u.username, u)])

/-- `AccessControl.authenticate_user` at time `now`: existence, active flag,
guest session expiry, password hash, then login bookkeeping for regular users. -/
def authenticate_user (s : State) (username password : String) (now : Int) :
    Except AuthError User × State :=
  match lookupUser s username with
  | none => (.error .NotFoundError, s)
  | some u =>
      if !u.is_active then (.error .InactiveAccountError, s)
      else if is_session_expired u now then (.error .SessionExpiredError, s)
      else if !verify_password u password then (.error .InvalidCredentialsError, s)
      else if isRegular u then
        let u2 := record_login u now
        (.ok u2, updateUser s username u2)
      else (.ok u, s)

/-- `AccessControl.deactivate_user`. -/
def deactivate_user (s : State) (username : String) : Bool × State :=
  match lookupUser s username with
  | none => (false, s)
  | some u => (true, updateUser s username { u with is_active := false })

/-- `AccessControl.activate_user`. -/
def activate_user (s : State) (username : String) : Bool × State :=
  match lookupUser s username with
  | none => (false, s)
  | some u => (true, updateUser s username { u with is_active := true })

/-- The mutating operations of the access-control layer. -/
inductive Op where
  | addUser (u : User)
  | auth (username password : String) (now : Int)
  | deactivate (username : String)
  | activate (username : String)

def step (s : State) : Op → State
  | .addUser u => (add_user s u).2
  | .auth l p now => (authenticate_user s l p now).2
  | .deactivate l => (deactivate_user s l).2
  | .activate l => (activate_user s l).2

def run (s : State) (ops : List Op) : State := ops.foldl step s

/-- The stored usernames, in insertion order. -/
def keys (s : State) : List String := s.map Prod.fst

/-- The `login_count` visible under a username (0 when absent). -/
def loginCountAt (s : State) (name : String) : Nat :=
  match lookupUser s name with
  | some u => loginCount u
  | none => 0

end AC

/-! ## Helper lemmas -/

namespace Sha

/-- The sixteen lowercase hexadecimal digits. -/
def hexAlphabet : List Char := "0123456789abcdef".data

theorem toHexChar_mem_hexAlphabet : ∀ n < 16, toHexChar n ∈ hexAlphabet := by decide

theorem byteToHex_mem (b : Nat) (hb : b < 256) : ∀ c ∈ byteToHex b, c ∈ hexAlphabet := by
  intro c hc
  simp only [byteToHex, List.mem_cons, List.not_mem_nil, or_false] at hc
  rcases hc with rfl | rfl
  · exact toHexChar_mem_hexAlphabet _ (by omega)
  · exact toHexChar_mem_hexAlphabet _ (by omega)

theorem wordBytes_lt (w : Nat) : ∀ b ∈ wordBytes w, b < 256 := by
  intro b hb
  simp only [wordBytes, List.mem_cons, List.not_mem_nil, or_false] at hb
  rcases hb with rfl | rfl | rfl | rfl <;> omega

theorem digestBytes_lt (H : Hash8) : ∀ b ∈ digestBytes H, b < 256 := by
  intro b hb
  rw [digestBytes, List.mem_flatMap] at hb
  obtain ⟨w, _, hbw⟩ := hb
  exact wordBytes_lt w b hbw

theorem sha256hex_chars (s : String) : ∀ c ∈ (sha256hex s).data, c ∈ hexAlphabet := by
  intro c hc
  rw [sha256hex, bytesToHexStr] at hc
  rw [show (String.mk ((digestBytes (sha256Words (utf8Encode s))).flatMap byteToHex)).data
        = (digestBytes (sha256Words (utf8Encode s))).flatMap byteToHex from rfl,
     List.mem_flatMap] at hc
  obtain ⟨b, hb, hcb⟩ := hc
  exact byteToHex_mem b (digestBytes_lt _ b hb) c hcb

theorem sha256hex_length (s : String) : (sha256hex s).length = 64 := rfl

end Sha

namespace AC

theorem record_login_not_regular {u : User} (h : isRegular u = false) (now : Int) :
    record_login u now = u := by
  cases u with
  | mk un ph act k => cases k <;> simp [record_login, isRegular] at h ⊢

theorem record_login_kind {u : User} {t : Option Int} {c : Nat}
    (h : u.kind = .regular t c) (now : Int) :
    record_login u now = { u with kind := .regular (some now) (c + 1) } := by
  cases u with
  | mk un ph act k => cases k <;> simp_all [record_login]

theorem lookupUser_updateUser_self {s : State} {name : String} {u : User} (u2 : User)
    (h : lookupUser s name = some u) :
    lookupUser (updateUser s name u2) name = some u2 := by
  induction s with
  | nil => simp [lookupUser] at h
  | cons p t ih =>
      cases hb : (p.1 == name)
      · have h' : lookupUser t name = some u := by simpa [lookupUser, hb] using h
        simpa [updateUser, lookupUser, hb] using ih h'
      · simp [updateUser, lookupUser, hb]

theorem lookupUser_updateUser_other {k name : String} (hne : name ≠ k) (s : State) (u2 : User) :
    lookupUser (updateUser s k u2) name = lookupUser s name := by
  induction s with
  | nil => rfl
  | cons p t ih =>
      cases hb : (p.1 == k) <;> cases hc : (p.1 == name) <;>
        simp_all [updateUser, lookupUser]

theorem keys_updateUser (s : State) (k : String) (u : User) :
    keys (updateUser s k u) = keys s := by
  induction s with
  | nil => rfl
  | cons p t ih => cases hb : (p.1 == k) <;> simp_all [updateUser, keys]

theorem lookupUser_append (s t : State) (name : String) :
    lookupUser (s ++ t) name = (lookupUser s name).or (lookupUser t name) := by
  induction s with
  | nil => simp [lookupUser]
  | cons p s2 ih => cases hb : (p.1 == name) <;> simp [lookupUser, hb, ih]

theorem not_mem_keys_of_not_contains {s : State} {name : String}
    (h : containsUser s name = false) : name ∉ keys s := by
  induction s with
  | nil => simp [keys]
  | cons p t ih =>
      intro hmem
      cases hb : (p.1 == name)
      · have h' : containsUser t name = false := by
          simpa [containsUser, lookupUser, hb] using h
        rcases (by simpa [keys] using hmem : name = p.1 ∨ name ∈ keys t) with rfl | hm
        · simp at hb
        · exact ih h' hm
      · simp [containsUser, lookupUser, hb] at h

end AC

/-! ## Claims -/

/-- C7: for every password `p`, both variants' hash functions are deterministic
(hashing `p` twice yields the identical digest), the two variants agree (both
apply SHA-256 to the UTF-8 encoding of `p`), and the digest is always exactly
64 lowercase hexadecimal characters. -/
theorem C7_hash_deterministic_64_lowercase_hex (p : String) :
    UM.hash_password p = UM.hash_password p ∧
    UM.hash_password p = AC.hash_password p ∧
    (UM.hash_password p).length = 64 ∧
    ∀ c ∈ (UM.hash_password p).data, c ∈ Sha.hexAlphabet :=
  ⟨rfl, rfl, Sha.sha256hex_length p, Sha.sha256hex_chars p⟩

/-- C7 witness: the digest of "abc" has length 64, and its first character 'b'
is a lowercase hexadecimal digit. -/
theorem C7_hash_witness :
    (UM.hash_password "abc").length = 64 ∧ 'b' ∈ Sha.hexAlphabet :=
  ⟨(C7_hash_deterministic_64_lowercase_hex "abc").2.2.1,
   (C7_hash_deterministic_64_lowercase_hex "abc").2.2.2 'b' (by decide)⟩

/-- C8: a guest account constructed at time `created` has `session_duration`
fixed at 3600 seconds, its reported remaining session time at any query time
equals `max (0, session_duration − elapsed)`, and is never negative. -/
theorem C8_guest_remaining_time (username password : String) (created now : Int) :
    (AC.mkGuestUser username password created).kind = .guest 3600 created ∧
    AC.get_remaining_time (AC.mkGuestUser username password created) now
      = max 0 (3600 - (now - created)) ∧
    0 ≤ AC.get_remaining_time (AC.mkGuestUser username password created) now := by
  refine ⟨rfl, rfl, ?_⟩
  show 0 ≤ max 0 (3600 - (now - created))
  exact le_max_left 0 _

/-- C10: the persistent store's `authenticate_user` and `update_password` with an
empty login or empty password fail immediately: the result is a validation error,
the store is not modified, and the result does not depend on the store contents. -/
theorem C10_empty_inputs_fail_without_store_access
    (db db2 : List UM.Record) (login password : String)
    (h : login = "" ∨ password = "") :
    UM.authenticate_user db login password = .error .ValidationError ∧
    UM.authenticate_user db login password = UM.authenticate_user db2 login password ∧
    UM.update_password db login password = (.error .ValidationError, db) ∧
    (UM.update_password db login password).1 = (UM.update_password db2 login password).1 := by
  rcases h with rfl | rfl <;>
    simp [UM.authenticate_user, UM.update_password]

/-- C10 witness: with login "alice" and empty password, authentication fails with
a validation error on an empty store, does not read a one-record store, and a
password update leaves the store unchanged. -/
theorem C10_empty_inputs_witness :
    UM.authenticate_user [] "alice" "" = .error .ValidationError ∧
    UM.authenticate_user [] "alice" "" = UM.authenticate_user [⟨"alice", "h", "A"⟩] "alice" "" ∧
    UM.update_password [] "alice" "" = (.error .ValidationError, []) ∧
    (UM.update_password [] "alice" "").1 = (UM.update_password [⟨"alice", "h", "A"⟩] "alice" "").1 :=
  C10_empty_inputs_fail_without_store_access [] [⟨"alice", "h", "A"⟩] "alice" "" (Or.inr rfl)

/-- C2 counterexample: the login `" "` is empty after trimming, yet
`add_user` succeeds (the validation check tests raw emptiness, not trimmed
emptiness), refuting the claimed "if and only if". -/
theorem C2_counterexample :
    pyStrip " " = "" ∧ (UM.add_user [] " " "p" "n").1 = Except.ok () := by
  exact ⟨by decide, rfl⟩

/-- C9 counterexample: an administrator constructed with the initial permission
list `["x", "x"]` keeps the duplicate — the constructor does not deduplicate. -/
theorem C9_counterexample :
    AC.permissions (AC.mkAdministrator "a" "p" ["x", "x"] true) = ["x", "x"] ∧
    ¬ (AC.permissions (AC.mkAdministrator "a" "p" ["x", "x"] true)).Nodup := by
  exact ⟨rfl, by decide⟩

/-- C1: the in-memory `authenticate_user` applies its failure checks in exactly
the order: absent login (`NotFoundError`), inactive account
(`InactiveAccountError`), expired guest session (`SessionExpiredError`, even
when the supplied password is correct — no hypothesis on the password is
needed), password hash mismatch (`InvalidCredentialsError`); on success the
stored account (with the login recorded for regular users) is returned. -/
theorem C1_authenticate_check_order (s : AC.State) (login password : String) (now : Int) :
    (AC.lookupUser s login = none →
      AC.authenticate_user s login password now = (.error .NotFoundError, s)) ∧
    (∀ u, AC.lookupUser s login = some u → u.is_active = false →
      AC.authenticate_user s login password now = (.error .InactiveAccountError, s)) ∧
    (∀ u, AC.lookupUser s login = some u → u.is_active = true →
      AC.is_session_expired u now = true →
      AC.authenticate_user s login password now = (.error .SessionExpiredError, s)) ∧
    (∀ u, AC.lookupUser s login = some u → u.is_active = true →
      AC.is_session_expired u now = false → AC.verify_password u password = false →
      AC.authenticate_user s login password now = (.error .InvalidCredentialsError, s)) ∧
    (∀ u, AC.lookupUser s login = some u → u.is_active = true →
      AC.is_session_expired u now = false → AC.verify_password u password = true →
      (AC.authenticate_user s login password now).1 = .ok (AC.record_login u now) ∧
      AC.lookupUser (AC.authenticate_user s login password now).2 login
        = some (AC.record_login u now)) := by
  refine ⟨?_, ?_, ?_, ?_, ?_⟩
  · intro h; simp [AC.authenticate_user, h]
  · intro u hu hact; simp [AC.authenticate_user, hu, hact]
  · intro u hu hact hexp; simp [AC.authenticate_user, hu, hact, hexp]
  · intro u hu hact hexp hpw; simp [AC.authenticate_user, hu, hact, hexp, hpw]
  · intro u hu hact hexp hpw
    cases hreg : AC.isRegular u
    · rw [AC.record_login_not_regular hreg]
      simp [AC.authenticate_user, hu, hact, hexp, hpw, hreg]
    · constructor
      · simp [AC.authenticate_user, hu, hact, hexp, hpw, hreg]
      · simp only [AC.authenticate_user, hu, hact, hexp, hpw, hreg]
        simp only [Bool.not_true, Bool.false_eq_true, if_false, if_true]
        exact AC.lookupUser_updateUser_self _ hu

/-- C1 witness: in a store holding one guest created at time 0, authentication
at time 4000 with the correct password fails with the session-expiry error. -/
theorem C1_authenticate_witness :
    AC.authenticate_user [("g", AC.mkGuestUser "g" "guest" 0)] "g" "guest" 4000
      = (.error .SessionExpiredError, [("g", AC.mkGuestUser "g" "guest" 0)]) ∧
    AC.verify_password (AC.mkGuestUser "g" "guest" 0) "guest" = true :=
  ⟨(C1_authenticate_check_order [("g", AC.mkGuestUser "g" "guest" 0)] "g" "guest" 4000).2.2.1
      (AC.mkGuestUser "g" "guest" 0) (by decide) rfl (by decide),
   by decide⟩

/-- C2 amended: `add_user` fails with `ValidationError` iff at least one of the
three fields is the empty string — the validation tests raw emptiness, not
emptiness after trimming; when all three are non-empty and the trimmed login is
not already taken, it persists a new record (with login and display name
trimmed) and succeeds. -/
theorem C2_create_account_validation (db : List UM.Record) (login password full_name : String) :
    ((UM.add_user db login password full_name).1 = .error .ValidationError ↔
      login = "" ∨ password = "" ∨ full_name = "") ∧
    (login ≠ "" → password ≠ "" → full_name ≠ "" →
      UM.loginTaken db (pyStrip login) = false →
      UM.add_user db login password full_name =
        (.ok (), db ++ [⟨pyStrip login, UM.hash_password password, pyStrip full_name⟩])) := by
  constructor
  · constructor
    · intro h
      by_contra hc
      push_neg at hc
      obtain ⟨h1, h2, h3⟩ := hc
      simp only [UM.add_user, h1, h2, h3] at h
      cases ht : UM.loginTaken db (pyStrip login) <;> simp [h1, h2, h3, ht] at h
    · intro h
      rcases h with rfl | rfl | rfl <;> simp [UM.add_user]
  · intro h1 h2 h3 htaken
    simp [UM.add_user, h1, h2, h3, htaken]

/-- C2 witness: creating ("u", "p", "n") in an empty store succeeds, does not
raise a validation error, and stores the record. -/
theorem C2_create_account_witness :
    ((UM.add_user [] "u" "p" "n").1 = .error .ValidationError ↔
      "u" = "" ∨ "p" = "" ∨ "n" = "") ∧
    UM.add_user [] "u" "p" "n" =
      (.ok (), [] ++ [⟨pyStrip "u", UM.hash_password "p", pyStrip "n"⟩]) :=
  ⟨(C2_create_account_validation [] "u" "p" "n").1,
   (C2_create_account_validation [] "u" "p" "n").2
     (by decide) (by decide) (by decide) rfl⟩

/-- C9 amended: `has_permission` is membership, `add_permission` is a no-op when
the permission is present, `remove_permission` is a no-op when it is absent, and
duplicate-freedom (set semantics) is preserved by both operations and holds
after construction whenever the supplied initial list is itself duplicate-free
(the constructor does not deduplicate a supplied list; the default list used
for an empty or absent argument is duplicate-free). -/
theorem C9_permission_set_semantics (username password q : String) (ps : List String)
    (act : Bool) (u : AC.User) :
    (ps.Nodup → (AC.permissions (AC.mkAdministrator username password ps act)).Nodup) ∧
    (AC.has_permission u q = true ↔ q ∈ AC.permissions u) ∧
    (q ∈ AC.permissions u → AC.add_permission u q = u) ∧
    (q ∉ AC.permissions u → AC.remove_permission u q = u) ∧
    ((AC.permissions u).Nodup → (AC.permissions (AC.add_permission u q)).Nodup) ∧
    ((AC.permissions u).Nodup → (AC.permissions (AC.remove_permission u q)).Nodup) := by
  obtain ⟨un, ph, hact, k⟩ := u
  refine ⟨?_, ?_, ?_, ?_, ?_, ?_⟩
  · intro hps
    by_cases he : ps.isEmpty <;>
      simp [AC.mkAdministrator, AC.permissions, he, hps]
    decide
  · cases k <;> simp [AC.has_permission, AC.permissions, List.contains_iff_exists_mem_beq]
  · intro hq
    cases k <;> simp_all [AC.permissions, AC.add_permission, List.elem_iff]
  · intro hq
    cases k <;> simp_all [AC.permissions, AC.remove_permission, List.elem_iff]
  · intro hnd
    cases k with
    | admin ps2 =>
        by_cases hq : q ∈ ps2
        · simpa [AC.add_permission, AC.permissions, List.elem_iff, hq] using hnd
        · simp only [AC.add_permission, AC.permissions] at hnd ⊢
          rw [if_neg (by simpa [List.elem_iff] using hq)]
          simp [AC.permissions, List.nodup_append, hnd]
          exact hq
    | base => simp [AC.add_permission, AC.permissions]
    | regular t c => simp [AC.add_permission, AC.permissions]
    | guest d c => simp [AC.add_permission, AC.permissions]
  · intro hnd
    cases k with
    | admin ps2 =>
        by_cases hq : q ∈ ps2
        · simp only [AC.remove_permission, AC.permissions] at hnd ⊢
          rw [if_pos (by simpa [List.elem_iff] using hq)]
          exact (List.erase_sublist q ps2).nodup hnd
        · simpa [AC.remove_permission, AC.permissions, List.elem_iff, hq] using hnd
    | base => simp [AC.remove_permission, AC.permissions]
    | regular t c => simp [AC.remove_permission, AC.permissions]
    | guest d c => simp [AC.remove_permission, AC.permissions]

/-- C9 witness: for an administrator with permission list ["x"], adding "x"
again is a no-op, and after adding "y" the list is still duplicate-free. -/
theorem C9_permission_witness :
    AC.add_permission (AC.mkAdministrator "a" "p" ["x"] true) "x"
      = AC.mkAdministrator "a" "p" ["x"] true ∧
    (AC.permissions (AC.add_permission (AC.mkAdministrator "a" "p" ["x"] true) "y")).Nodup :=
  ⟨(C9_permission_set_semantics "a" "p" "x" ["x"] true
      (AC.mkAdministrator "a" "p" ["x"] true)).2.2.1 (by decide),
   (C9_permission_set_semantics "a" "p" "y" ["x"] true
      (AC.mkAdministrator "a" "p" ["x"] true)).2.2.2.2.1 (by decide)⟩

/-- C3 counterexample: the in-memory variant does not trim logins. A store
holding "bob" rejects authentication under the padded login " bob" (whose
trimmed form is "bob") with the not-found error, while "bob" authenticates. -/
theorem C3_counterexample :
    pyStrip " bob" = "bob" ∧
    (AC.add_user [] (AC.mkRegularUser "bob" "pw" true)).2
      = [("bob", AC.mkRegularUser "bob" "pw" true)] ∧
    (AC.authenticate_user [("bob", AC.mkRegularUser "bob" "pw" true)] " bob" "pw" 0).1
      = .error .NotFoundError ∧
    (AC.authenticate_user [("bob", AC.mkRegularUser "bob" "pw" true)] "bob" "pw" 0).1
      = .ok (AC.record_login (AC.mkRegularUser "bob" "pw" true) 0) := by
  exact ⟨by decide, rfl, rfl, by decide⟩

/-- C3 amended: only the persistent variant trims logins before comparison and
storage: its lookup, authentication, password update and duplicate check agree
on any two logins with the same trimmed form (given the raw non-emptiness
checks pass). The in-memory variant compares raw usernames without trimming. -/
theorem C3_trimming_persistent_variant (db : List UM.Record) (l pad password full_name : String)
    (hpad : pyStrip pad = pyStrip l) :
    UM.user_exists db pad = UM.user_exists db l ∧
    (pad ≠ "" → l ≠ "" → password ≠ "" →
      UM.authenticate_user db pad password = UM.authenticate_user db l password ∧
      UM.update_password db pad password = UM.update_password db l password) ∧
    (pad ≠ "" → l ≠ "" → password ≠ "" → full_name ≠ "" →
      UM.add_user db pad password full_name = UM.add_user db l password full_name) := by
  refine ⟨?_, fun h1 h2 h3 => ⟨?_, ?_⟩, fun h1 h2 h3 h4 => ?_⟩
  · simp [UM.user_exists, hpad]
  · simp [UM.authenticate_user, hpad, h1, h2, h3]
  · simp [UM.update_password, hpad, h1, h2, h3]
  · simp [UM.add_user, hpad, h1, h2, h3, h4]

/-- C3 witness: in a one-record persistent store, the padded login " bob "
behaves exactly like "bob" for the existence check and authentication. -/
theorem C3_trimming_witness :
    UM.user_exists [⟨"bob", "h", "B"⟩] " bob " = UM.user_exists [⟨"bob", "h", "B"⟩] "bob" ∧
    UM.authenticate_user [⟨"bob", "h", "B"⟩] " bob " "p"
      = UM.authenticate_user [⟨"bob", "h", "B"⟩] "bob" "p" :=
  ⟨(C3_trimming_persistent_variant [⟨"bob", "h", "B"⟩] "bob" " bob " "p" "n" (by decide)).1,
   ((C3_trimming_persistent_variant [⟨"bob", "h", "B"⟩] "bob" " bob " "p" "n" (by decide)).2.1
      (by decide) (by decide) (by decide)).1⟩

namespace UM

theorem findUser_update (db : List Record) (l pw : String) :
    findUser (db.map (fun r => if r.login == l then { r with password := pw } else r)) l
      = (findUser db l).map (fun r => { r with password := pw }) := by
  induction db with
  | nil => rfl
  | cons r t ih =>
      cases hb : (r.login == l)
      · simp [findUser, hb]
        simpa using ih
      · simp [findUser, hb]

end UM

/-- C6: after a successful `update_password(login, new_pw)`, authentication with
`new_pw` succeeds and authentication with an `old_pw` whose digest differs from
`new_pw`'s fails with the invalid-credentials error; `update_password` fails
with `NotFoundError` when the login is absent (and the inputs are non-empty) and
with `ValidationError` when the new password is empty. -/
theorem C6_update_password_then_authenticate (db : List UM.Record)
    (login old_pw new_pw : String) :
    (new_pw = "" → UM.update_password db login new_pw = (.error .ValidationError, db)) ∧
    (login ≠ "" → new_pw ≠ "" → UM.findUser db (pyStrip login) = none →
      UM.update_password db login new_pw = (.error .NotFoundError, db)) ∧
    (∀ r, login ≠ "" → new_pw ≠ "" → UM.findUser db (pyStrip login) = some r →
      (UM.update_password db login new_pw).1 = .ok () ∧
      UM.authenticate_user (UM.update_password db login new_pw).2 login new_pw = .ok () ∧
      (old_pw ≠ "" → UM.hash_password old_pw ≠ UM.hash_password new_pw →
        UM.authenticate_user (UM.update_password db login new_pw).2 login old_pw
          = .error .InvalidCredentialsError)) := by
  refine ⟨?_, ?_, ?_⟩
  · intro h; subst h; simp [UM.update_password]
  · intro h1 h2 hf; simp [UM.update_password, h1, h2, hf]
  · intro r h1 h2 hf
    have hupd : (UM.update_password db login new_pw).2
        = db.map (fun r2 => if r2.login == pyStrip login
            then { r2 with password := UM.hash_password new_pw } else r2) := by
      simp [UM.update_password, h1, h2, hf]
    have hfind : UM.findUser (UM.update_password db login new_pw).2 (pyStrip login)
        = some { r with password := UM.hash_password new_pw } := by
      rw [hupd, UM.findUser_update, hf]; rfl
    refine ⟨by simp [UM.update_password, h1, h2, hf], ?_, ?_⟩
    · simp [UM.authenticate_user, h1, h2, hfind]
    · intro h3 h4
      simp [UM.authenticate_user, h1, h3, hfind, h4.symm]

/-- C6 witness: in a store holding "alice" with the digest of "oldpw", updating
the password to "newpw" succeeds, "newpw" then authenticates, "oldpw" is
rejected. -/
theorem C6_update_password_witness :
    (UM.update_password [⟨"alice", UM.hash_password "oldpw", "A"⟩] "alice" "newpw").1
      = .ok () ∧
    UM.authenticate_user
      (UM.update_password [⟨"alice", UM.hash_password "oldpw", "A"⟩] "alice" "newpw").2
      "alice" "newpw" = .ok () ∧
    UM.authenticate_user
      (UM.update_password [⟨"alice", UM.hash_password "oldpw", "A"⟩] "alice" "newpw").2
      "alice" "oldpw" = .error .InvalidCredentialsError := by
  have T := (C6_update_password_then_authenticate
      [⟨"alice", UM.hash_password "oldpw", "A"⟩] "alice" "oldpw" "newpw").2.2
      ⟨"alice", UM.hash_password "oldpw", "A"⟩ (by decide) (by decide) (by decide)
  exact ⟨T.1, T.2.1, T.2.2 (by decide) (by decide)⟩

namespace UM

theorem logins_update_map (db : List Record) (l pw : String) :
    logins (db.map (fun r => if r.login == l then { r with password := pw } else r))
      = logins db := by
  rw [logins, logins, List.map_map]
  apply List.map_congr_left
  intro r hr
  by_cases hb : r.login = l <;> simp [hb]

theorem not_mem_logins_of_not_taken {db : List Record} {l : String}
    (h : loginTaken db l = false) : l ∉ logins db := by
  intro hm
  rw [logins, List.mem_map] at hm
  obtain ⟨r, hr, hrl⟩ := hm
  simp [loginTaken] at h
  exact h r hr hrl

theorem nodup_logins_step {db : List Record} (h : (logins db).Nodup) (op : Op) :
    (logins (step db op)).Nodup := by
  cases op with
  | addUser l p n =>
      cases hv : (l == "" || p == "" || n == "")
      · cases ht : loginTaken db (pyStrip l)
        · have hstep : step db (.addUser l p n)
              = db ++ [⟨pyStrip l, hash_password p, pyStrip n⟩] := by
            simp only [step, add_user, hv, ht]
            simp
          rw [hstep, logins, List.map_append]
          rw [List.nodup_append]
          refine ⟨h, by simp, ?_⟩
          intro a ha hb
          rcases (by simpa using hb : a = pyStrip l) with rfl
          exact not_mem_logins_of_not_taken ht ha
        · have hstep : step db (.addUser l p n) = db := by
            simp only [step, add_user, hv, ht]
            simp
          rw [hstep]; exact h
      · have hstep : step db (.addUser l p n) = db := by
          simp only [step, add_user, hv]
          simp
        rw [hstep]; exact h
  | updatePassword l p =>
      cases hv : (l == "" || p == "")
      · cases hf : findUser db (pyStrip l)
        · have hstep : step db (.updatePassword l p) = db := by
            simp only [step, update_password, hv, hf]
            simp
          rw [hstep]; exact h
        · have hstep : step db (.updatePassword l p)
              = db.map (fun r => if r.login == pyStrip l
                  then { r with password := hash_password p } else r) := by
            simp only [step, update_password, hv, hf]
            simp
          rw [hstep, logins_update_map]; exact h
      · have hstep : step db (.updatePassword l p) = db := by
          simp only [step, update_password, hv]
          simp
        rw [hstep]; exact h

theorem nodup_logins_run (ops : List Op) :
    ∀ db, (logins db).Nodup → (logins (run db ops)).Nodup := by
  induction ops with
  | nil => intro db h; exact h
  | cons op rest ih => intro db h; exact ih (step db op) (nodup_logins_step h op)

end UM

namespace AC

/-- Every run of `authenticate_user` either leaves the store unchanged or is the
successful regular-user path, which writes back the recorded login. -/
theorem auth_cases (s : State) (l p : String) (now : Int) :
    (authenticate_user s l p now).2 = s ∨
    ∃ u, lookupUser s l = some u ∧
      authenticate_user s l p now
        = (.ok (record_login u now), updateUser s l (record_login u now)) := by
  cases hl : lookupUser s l with
  | none => exact Or.inl (by simp [authenticate_user, hl])
  | some u =>
      cases hact : u.is_active
      · exact Or.inl (by simp [authenticate_user, hl, hact])
      · cases hexp : is_session_expired u now
        · cases hpw : verify_password u p
          · exact Or.inl (by simp [authenticate_user, hl, hact, hexp, hpw])
          · cases hreg : isRegular u
            · exact Or.inl (by simp [authenticate_user, hl, hact, hexp, hpw, hreg])
            · exact Or.inr ⟨u, rfl, by simp [authenticate_user, hl, hact, hexp, hpw, hreg]⟩
        · exact Or.inl (by simp [authenticate_user, hl, hact, hexp])

theorem nodup_keys_step {s : State} (h : (keys s).Nodup) (op : Op) :
    (keys (step s op)).Nodup := by
  cases op with
  | addUser u =>
      cases hc : containsUser s u.username
      · have hstep : step s (.addUser u) = s ++ [(u.username, u)] := by
          simp [step, add_user, hc]
        rw [hstep, keys, List.map_append, List.nodup_append]
        refine ⟨h, by simp, ?_⟩
        intro a ha hb
        rcases (by simpa using hb : a = u.username) with rfl
        exact not_mem_keys_of_not_contains hc ha
      · have hstep : step s (.addUser u) = s := by simp [step, add_user, hc]
        rw [hstep]; exact h
  | auth l p now =>
      rcases auth_cases s l p now with hs | ⟨u, hu, he⟩
      · simpa [step, hs] using h
      · have : step s (.auth l p now) = updateUser s l (record_login u now) := by
          simp [step, he]
        rw [this, keys_updateUser]; exact h
  | deactivate l =>
      cases hl : lookupUser s l with
      | none => simpa [step, deactivate_user, hl] using h
      | some u =>
          have : step s (.deactivate l) = updateUser s l { u with is_active := false } := by
            simp [step, deactivate_user, hl]
          rw [this, keys_updateUser]; exact h
  | activate l =>
      cases hl : lookupUser s l with
      | none => simpa [step, activate_user, hl] using h
      | some u =>
          have : step s (.activate l) = updateUser s l { u with is_active := true } := by
            simp [step, activate_user, hl]
          rw [this, keys_updateUser]; exact h

theorem nodup_keys_run (ops : List Op) :
    ∀ s, (keys s).Nodup → (keys (run s ops)).Nodup := by
  induction ops with
  | nil => intro s h; exact h
  | cons op rest ih => intro s h; exact ih (step s op) (nodup_keys_step h op)

theorem loginCount_le_record_login (u : User) (now : Int) :
    loginCount u ≤ loginCount (record_login u now) := by
  obtain ⟨un, ph, act, k⟩ := u
  cases k <;> simp [record_login, loginCount]

theorem exists_lookup_of_contains {s : State} {name : String}
    (h : containsUser s name = true) : ∃ u, lookupUser s name = some u := by
  cases hl : lookupUser s name
  · rw [containsUser, hl] at h; simp at h
  · exact ⟨_, rfl⟩

theorem loginCountAt_updateUser_toggle (s : State) (l name : String) (u : User) (b : Bool)
    (hu : lookupUser s l = some u) :
    loginCountAt (updateUser s l { u with is_active := b }) name = loginCountAt s name := by
  by_cases hn : name = l
  · subst hn
    unfold loginCountAt
    rw [lookupUser_updateUser_self _ hu, hu]
    rfl
  · unfold loginCountAt
    rw [lookupUser_updateUser_other hn]

theorem loginCountAt_step_le (s : State) (op : Op) (name : String) :
    loginCountAt s name ≤ loginCountAt (step s op) name := by
  cases op with
  | addUser u =>
      cases hc : containsUser s u.username
      · have hstep : step s (.addUser u) = s ++ [(u.username, u)] := by
          simp [step, add_user, hc]
        rw [hstep]
        unfold loginCountAt
        rw [lookupUser_append]
        cases hl : lookupUser s name
        · simp
        · simp [Option.or]
      · have hstep : step s (.addUser u) = s := by simp [step, add_user, hc]
        rw [hstep]
  | auth l p now =>
      rcases auth_cases s l p now with hs | ⟨u, hu, he⟩
      · simp only [step]; rw [hs]
      · have hstep : step s (.auth l p now) = updateUser s l (record_login u now) := by
          simp [step, he]
        rw [hstep]
        by_cases hn : name = l
        · subst hn
          unfold loginCountAt
          rw [lookupUser_updateUser_self _ hu, hu]
          exact loginCount_le_record_login u now
        · unfold loginCountAt
          rw [lookupUser_updateUser_other hn]
  | deactivate l =>
      cases hl : lookupUser s l with
      | none => simp [step, deactivate_user, hl]
      | some u =>
          have hstep : step s (.deactivate l)
              = updateUser s l { u with is_active := false } := by
            simp [step, deactivate_user, hl]
          rw [hstep, loginCountAt_updateUser_toggle s l name u false hl]
  | activate l =>
      cases hl : lookupUser s l with
      | none => simp [step, activate_user, hl]
      | some u =>
          have hstep : step s (.activate l)
              = updateUser s l { u with is_active := true } := by
            simp [step, activate_user, hl]
          rw [hstep, loginCountAt_updateUser_toggle s l name u true hl]

theorem loginCountAt_run_le (ops : List Op) :
    ∀ (s : State) (name : String), loginCountAt s name ≤ loginCountAt (run s ops) name := by
  induction ops with
  | nil => intro s name; exact le_rfl
  | cons op rest ih =>
      intro s name
      exact le_trans (loginCountAt_step_le s op name) (ih (step s op) name)

end AC

/-- C4: registering an already-present login fails — unconditionally with a
`False` result in the in-memory variant, and with `DuplicateLoginError` in the
persistent variant once the non-emptiness validation passes — the previously
stored state (including the original record's hash) is unchanged by the failed
call, and login uniqueness holds in every state reachable from the empty store
by either store's operations. -/
theorem C4_duplicate_register_and_uniqueness :
    (∀ (s : AC.State) (u : AC.User),
      AC.containsUser s u.username = true → AC.add_user s u = (false, s)) ∧
    (∀ (db : List UM.Record) (l p n : String),
      UM.loginTaken db (pyStrip l) = true →
        (UM.add_user db l p n).2 = db ∧
        (l ≠ "" → p ≠ "" → n ≠ "" →
          (UM.add_user db l p n).1 = .error .DuplicateLoginError)) ∧
    (∀ ops : List AC.Op, (AC.keys (AC.run [] ops)).Nodup) ∧
    (∀ ops : List UM.Op, (UM.logins (UM.run [] ops)).Nodup) := by
  refine ⟨?_, ?_, ?_, ?_⟩
  · intro s u hc
    simp [AC.add_user, hc]
  · intro db l p n ht
    constructor
    · cases hv : (l == "" || p == "" || n == "") <;> simp [UM.add_user, hv, ht]
    · intro h1 h2 h3
      simp [UM.add_user, h1, h2, h3, ht]
  · intro ops
    exact AC.nodup_keys_run ops [] (by simp [AC.keys])
  · intro ops
    exact UM.nodup_logins_run ops [] (by simp [UM.logins])

/-- C4 witness: adding a second user under the taken username "a" fails and
leaves both stores unchanged; the persistent variant reports the duplicate. -/
theorem C4_duplicate_witness :
    AC.add_user [("a", AC.mkUser "a" "p" true)] (AC.mkUser "a" "q" true)
      = (false, [("a", AC.mkUser "a" "p" true)]) ∧
    (UM.add_user [⟨"a", "h", "n"⟩] "a" "q" "m").2 = [⟨"a", "h", "n"⟩] ∧
    (UM.add_user [⟨"a", "h", "n"⟩] "a" "q" "m").1 = .error .DuplicateLoginError :=
  ⟨C4_duplicate_register_and_uniqueness.1 [("a", AC.mkUser "a" "p" true)]
      (AC.mkUser "a" "q" true) (by decide),
   (C4_duplicate_register_and_uniqueness.2.1 [⟨"a", "h", "n"⟩] "a" "q" "m" (by decide)).1,
   (C4_duplicate_register_and_uniqueness.2.1 [⟨"a", "h", "n"⟩] "a" "q" "m" (by decide)).2
      (by decide) (by decide) (by decide)⟩

/-- C5: a successful authentication of a stored `Regular` account increments its
`login_count` by exactly 1 and sets `last_login` to the current time; every
failed authentication leaves the store unchanged; registration of a fresh user
and the activation toggles never change an existing account's `login_count`;
hence `login_count` never decreases across any sequence of operations. -/
theorem C5_login_count_monotone (s : AC.State) (login password name : String) (now : Int) :
    (∀ u t c, AC.lookupUser s login = some u → u.kind = .regular t c →
      u.is_active = true → AC.verify_password u password = true →
      AC.authenticate_user s login password now
          = (.ok { u with kind := .regular (some now) (c + 1) },
             AC.updateUser s login { u with kind := .regular (some now) (c + 1) }) ∧
      AC.loginCountAt (AC.authenticate_user s login password now).2 login = c + 1 ∧
      (∀ n2, n2 ≠ login →
        AC.loginCountAt (AC.authenticate_user s login password now).2 n2
          = AC.loginCountAt s n2)) ∧
    (∀ e, (AC.authenticate_user s login password now).1 = .error e →
      (AC.authenticate_user s login password now).2 = s) ∧
    (∀ u, AC.containsUser s name = true →
      AC.loginCountAt (AC.step s (.addUser u)) name = AC.loginCountAt s name) ∧
    (AC.loginCountAt (AC.step s (.deactivate login)) name = AC.loginCountAt s name ∧
     AC.loginCountAt (AC.step s (.activate login)) name = AC.loginCountAt s name) ∧
    (∀ ops : List AC.Op, AC.loginCountAt s name ≤ AC.loginCountAt (AC.run s ops) name) := by
  refine ⟨?_, ?_, ?_, ⟨?_, ?_⟩, fun ops => AC.loginCountAt_run_le ops s name⟩
  · intro u t c hu hkind hact hpw
    have hreg : AC.isRegular u = true := by simp [AC.isRegular, hkind]
    have hexp : AC.is_session_expired u now = false := by simp [AC.is_session_expired, hkind]
    have hrec := AC.record_login_kind hkind now
    have hauth : AC.authenticate_user s login password now
        = (.ok { u with kind := .regular (some now) (c + 1) },
           AC.updateUser s login { u with kind := .regular (some now) (c + 1) }) := by
      simp [AC.authenticate_user, hu, hact, hexp, hpw, hreg, hrec]
    refine ⟨hauth, ?_, ?_⟩
    · rw [hauth]
      unfold AC.loginCountAt
      rw [AC.lookupUser_updateUser_self _ hu]
      rfl
    · intro n2 hn2
      rw [hauth]
      unfold AC.loginCountAt
      rw [AC.lookupUser_updateUser_other hn2]
  · intro e he
    rcases AC.auth_cases s login password now with hs | ⟨u, hu, hq⟩
    · exact hs
    · rw [hq] at he; simp at he
  · intro u hc
    obtain ⟨v, hv⟩ := AC.exists_lookup_of_contains hc
    cases hc2 : AC.containsUser s u.username
    · have hstep : AC.step s (.addUser u) = s ++ [(u.username, u)] := by
        simp [AC.step, AC.add_user, hc2]
      rw [hstep]
      unfold AC.loginCountAt
      rw [AC.lookupUser_append, hv]
      rfl
    · have hstep : AC.step s (.addUser u) = s := by simp [AC.step, AC.add_user, hc2]
      rw [hstep]
  · cases hl : AC.lookupUser s login with
    | none => simp [AC.step, AC.deactivate_user, hl]
    | some u =>
        have hstep : AC.step s (.deactivate login)
            = AC.updateUser s login { u with is_active := false } := by
          simp [AC.step, AC.deactivate_user, hl]
        rw [hstep, AC.loginCountAt_updateUser_toggle s login name u false hl]
  · cases hl : AC.lookupUser s login with
    | none => simp [AC.step, AC.activate_user, hl]
    | some u =>
        have hstep : AC.step s (.activate login)
            = AC.updateUser s login { u with is_active := true } := by
          simp [AC.step, AC.activate_user, hl]
        rw [hstep, AC.loginCountAt_updateUser_toggle s login name u true hl]

/-- C5 witness: authenticating the stored regular user "r" with the correct
password at time 7 returns the account with `login_count` 1 and `last_login` 7,
and the stored `login_count` becomes 1. -/
theorem C5_login_count_witness :
    AC.authenticate_user [("r", AC.mkRegularUser "r" "pw" true)] "r" "pw" 7
      = (.ok { AC.mkRegularUser "r" "pw" true with kind := .regular (some 7) 1 },
         AC.updateUser [("r", AC.mkRegularUser "r" "pw" true)] "r"
           { AC.mkRegularUser "r" "pw" true with kind := .regular (some 7) 1 }) ∧
    AC.loginCountAt
      (AC.authenticate_user [("r", AC.mkRegularUser "r" "pw" true)] "r" "pw" 7).2 "r" = 1 := by
  have T := (C5_login_count_monotone [("r", AC.mkRegularUser "r" "pw" true)]
      "r" "pw" "r" 7).1 (AC.mkRegularUser "r" "pw" true) none 0 (by decide) rfl rfl (by decide)
  exact ⟨T.1, T.2.1⟩

